import Mathlib

/-!
Verification of the disk-backed search-result cache and the three
read-through search providers of the RAGs-to-Riches repository.

The Python sources are shallowly embedded:
* `src/utils/cache.py` — the cache store (`get_cache_path`,
  `load_from_cache`, `save_to_cache`, `clear_cache`).  The cache
  directory is modelled as an association list from file name to file
  content; a file is either a parseable JSON list of results, corrupt
  (raises `json.JSONDecodeError` on load), unreadable (raises
  `IOError`), or made of undecodable bytes (raises
  `UnicodeDecodeError`, which the load's `except` clause does not
  catch).  `hashlib.md5(...).hexdigest()` is embedded concretely as
  `md5hex` below (RFC 1321 over `Nat` arithmetic).
* `src/utils/formatting.py` — `safe_str`, `sanitize_filename`.
* `src/tools/web_search.py`, `src/tools/openalex_search.py`,
  `src/tools/crossref_search.py` — the three providers.  The HTTP /
  DDGS layer is an external collaborator; each provider takes the
  outcome of its (single) upstream call as an `Except` parameter: `ok`
  carries the decoded payload, `error` carries the message of the
  exception the Python client would raise (network error, non-2xx via
  `raise_for_status`, malformed JSON payload).  A `writeOk` flag models
  whether the best-effort cache write succeeds (`IOError` is swallowed
  by `save_to_cache`).
-/

-- Decidable equality for `Except`, used to evaluate theorems about the
-- embedded fallible functions on concrete inputs.
deriving instance DecidableEq for Except

/-! ### MD5 (RFC 1321), as used by `hashlib.md5(query.encode()).hexdigest()` -/

/-- Reduce modulo 2^32. -/
def m32 (n : Nat) : Nat := n % 4294967296

/-- 32-bit bitwise complement. -/
def not32 (x : Nat) : Nat := x ^^^ 4294967295

/-- 32-bit left rotation. -/
def rotl32 (x s : Nat) : Nat := m32 (x <<< s) ||| (m32 x >>> (32 - s))

/-- The 64 MD5 sine-derived additive constants. -/
def md5K : List Nat :=
  [0xd76aa478, 0xe8c7b756, 0x242070db, 0xc1bdceee,
   0xf57c0faf, 0x4787c62a, 0xa8304613, 0xfd469501,
   0x698098d8, 0x8b44f7af, 0xffff5bb1, 0x895cd7be,
   0x6b901122, 0xfd987193, 0xa679438e, 0x49b40821,
   0xf61e2562, 0xc040b340, 0x265e5a51, 0xe9b6c7aa,
   0xd62f105d, 0x02441453, 0xd8a1e681, 0xe7d3fbc8,
   0x21e1cde6, 0xc33707d6, 0xf4d50d87, 0x455a14ed,
   0xa9e3e905, 0xfcefa3f8, 0x676f02d9, 0x8d2a4c8a,
   0xfffa3942, 0x8771f681, 0x6d9d6122, 0xfde5380c,
   0xa4beea44, 0x4bdecfa9, 0xf6bb4b60, 0xbebfbc70,
   0x289b7ec6, 0xeaa127fa, 0xd4ef3085, 0x04881d05,
   0xd9d4d039, 0xe6db99e5, 0x1fa27cf8, 0xc4ac5665,
   0xf4292244, 0x432aff97, 0xab9423a7, 0xfc93a039,
   0x655b59c3, 0x8f0ccc92, 0xffeff47d, 0x85845dd1,
   0x6fa87e4f, 0xfe2ce6e0, 0xa3014314, 0x4e0811a1,
   0xf7537e82, 0xbd3af235, 0x2ad7d2bb, 0xeb86d391]

/-- The 64 MD5 per-round left-rotation amounts. -/
def md5S : List Nat :=
  [7, 12, 17, 22, 7, 12, 17, 22, 7, 12, 17, 22, 7, 12, 17, 22,
   5, 9, 14, 20, 5, 9, 14, 20, 5, 9, 14, 20, 5, 9, 14, 20,
   4, 11, 16, 23, 4, 11, 16, 23, 4, 11, 16, 23, 4, 11, 16, 23,
   6, 10, 15, 21, 6, 10, 15, 21, 6, 10, 15, 21, 6, 10, 15, 21]

/-- One MD5 round on the state `(a, b, c, d)` with message words `M`. -/
def md5Round (M : List Nat) (st : Nat × Nat × Nat × Nat) (i : Nat) :
    Nat × Nat × Nat × Nat :=
  let a := st.1
  let b := st.2.1
  let c := st.2.2.1
  let d := st.2.2.2
  let f :=
    if i < 16 then (b &&& c) ||| (not32 b &&& d)
    else if i < 32 then (b &&& d) ||| (c &&& not32 d)
    else if i < 48 then b ^^^ c ^^^ d
    else c ^^^ (b ||| not32 d)
  let g :=
    if i < 16 then i
    else if i < 32 then (5 * i + 1) % 16
    else if i < 48 then (3 * i + 5) % 16
    else (7 * i) % 16
  let f2 := m32 (f + a + md5K.getD i 0 + M.getD g 0)
  (d, m32 (b + rotl32 f2 (md5S.getD i 0)), b, c)

/-- Group bytes into little-endian 32-bit words. -/
def bytesToWordsLE : List Nat → List Nat
  | b0 :: b1 :: b2 :: b3 :: rest =>
      (b0 + b1 * 256 + b2 * 65536 + b3 * 16777216) :: bytesToWordsLE rest
  | _ => []

/-- Process one 64-byte chunk. -/
def md5Chunk (st : Nat × Nat × Nat × Nat) (chunk : List Nat) :
    Nat × Nat × Nat × Nat :=
  let M := bytesToWordsLE chunk
  let r := (List.range 64).foldl (md5Round M) st
  (m32 (st.1 + r.1), m32 (st.2.1 + r.2.1), m32 (st.2.2.1 + r.2.2.1),
   m32 (st.2.2.2 + r.2.2.2))

/-- Split a byte list into 64-byte chunks (fuel-driven so it reduces). -/
def chunks64Aux : Nat → List Nat → List (List Nat)
  | 0, _ => []
  | _, [] => []
  | fuel + 1, l => l.take 64 :: chunks64Aux fuel (l.drop 64)

/-- Split a byte list into 64-byte chunks. -/
def chunks64 (l : List Nat) : List (List Nat) := chunks64Aux l.length l

/-- MD5 padding: `0x80`, zeros to 56 mod 64, then the 64-bit LE bit length. -/
def md5Pad (msg : List Nat) : List Nat :=
  let len := msg.length
  let padLen := (55 + 64 - len % 64) % 64 + 1
  let bits := (len * 8) % 18446744073709551616
  msg ++ 128 :: List.replicate (padLen - 1) 0 ++
    (List.range 8).map (fun i => (bits >>> (8 * i)) % 256)

/-- Two lowercase hex digits of a byte. -/
def byteHex (b : Nat) : List Char := [Nat.digitChar (b / 16), Nat.digitChar (b % 16)]

/-- Hex rendering of a 32-bit word, least-significant byte first. -/
def wordHexLE (w : Nat) : List Char :=
  byteHex (w % 256) ++ byteHex ((w >>> 8) % 256) ++
  byteHex ((w >>> 16) % 256) ++ byteHex ((w >>> 24) % 256)

/-- MD5 hex digest of a byte list. -/
def md5Bytes (msg : List Nat) : String :=
  let st := (chunks64 (md5Pad msg)).foldl md5Chunk
    (0x67452301, 0xefcdab89, 0x98badcfe, 0x10325476)
  ⟨wordHexLE st.1 ++ wordHexLE st.2.1 ++ wordHexLE st.2.2.1 ++ wordHexLE st.2.2.2⟩

/-- UTF-8 encoding of one character (`str.encode()` is UTF-8 in Python). -/
def utf8Enc (c : Char) : List Nat :=
  let n := c.toNat
  if n < 128 then [n]
  else if n < 2048 then [192 ||| (n >>> 6), 128 ||| (n &&& 63)]
  else if n < 65536 then
    [224 ||| (n >>> 12), 128 ||| ((n >>> 6) &&& 63), 128 ||| (n &&& 63)]
  else
    [240 ||| (n >>> 18), 128 ||| ((n >>> 12) &&& 63),
     128 ||| ((n >>> 6) &&& 63), 128 ||| (n &&& 63)]

/-- `hashlib.md5(s.encode()).hexdigest()`. -/
def md5hex (s : String) : String :=
  md5Bytes ((s.data.map utf8Enc).flatten)

/-! ### Data model: search results and cache files -/

/-- The uniform search-result record.  All fields are strings; fields a
provider does not produce stay at `""` (`safe_str` normalizes `None` to
the empty string). -/
structure SearchResult where
  title : String := ""
  url : String := ""
  snippet : String := ""
  source : String := ""
  authors : String := ""
  publication_date : String := ""
  journal : String := ""
  publisher : String := ""
deriving DecidableEq, Repr

/-- A cache entry: the JSON-serialized list of result records. -/
abbrev CacheEntry := List SearchResult

/-- Content of one file in the cache directory: a parseable entry, a
corrupt file (`json.load` raises `json.JSONDecodeError`), an unreadable
file (`open`/read raises `IOError`), or a file whose bytes cannot be
decoded as text (reading inside `json.load` raises
`UnicodeDecodeError`, which is a subclass of neither
`json.JSONDecodeError` nor `IOError`). -/
inductive CacheFile where
  | valid (entry : CacheEntry)
  | corrupt
  | unreadable
  | undecodable
deriving DecidableEq

/-- The cache directory (`CACHE_DIR`): file name to file content. -/
abbrev CacheDir := List (String × CacheFile)

/-- Look a file up in the cache directory. -/
def fsRead (fs : CacheDir) (path : String) : Option CacheFile :=
  (fs.find? (fun kv => kv.1 == path)).map (fun kv => kv.2)

/-- Create or overwrite a file in the cache directory. -/
def fsWrite (fs : CacheDir) (path : String) (v : CacheFile) : CacheDir :=
  (path, v) :: fs.filter (fun kv => kv.1 != path)

/-! ### `src/utils/cache.py` -/

/-- `get_cache_path`: `CACHE_DIR / f"{tool_name}_{query_hash}.json"` with
`query_hash = hashlib.md5(query.encode()).hexdigest()`.  The path is
relative to the cache directory. -/
def get_cache_path (tool_name : String) (query : String) : String :=
  tool_name ++ "_" ++ md5hex query ++ ".json"

/-- `load_from_cache`: returns the parsed entry when the file exists and
parses; `None` when the file is absent, corrupt (`json.JSONDecodeError`)
or unreadable (`IOError`).  A file with undecodable bytes makes
`json.load` raise `UnicodeDecodeError`, which the
`except (json.JSONDecodeError, IOError)` clause does not catch: that
exception propagates to the caller (`Except.error`). -/
def load_from_cache (fs : CacheDir) (tool_name query : String) :
    Except Unit (Option CacheEntry) :=
  match fsRead fs (get_cache_path tool_name query) with
  | some (CacheFile.valid e) => Except.ok (some e)
  | some CacheFile.corrupt => Except.ok none
  | some CacheFile.unreadable => Except.ok none
  | some CacheFile.undecodable => Except.error ()
  | none => Except.ok none

/-- `save_to_cache`: writes the entry at the derived path; a failing
write (`IOError`, modelled by `writeOk = false`) is swallowed and leaves
the directory unchanged. -/
def save_to_cache (fs : CacheDir) (tool_name query : String)
    (results : CacheEntry) (writeOk : Bool) : CacheDir :=
  if writeOk then fsWrite fs (get_cache_path tool_name query) (CacheFile.valid results)
  else fs

/-- `glob("*.json")`: the file name ends with `.json`. -/
def isJsonFile (path : String) : Bool := ".json".data.isSuffixOf path.data

/-- `clear_cache`: unlink every `*.json` file in the cache directory,
counting the successful unlinks; a file whose unlink raises
(`deletable path = false`) is skipped and the loop continues.  Returns
the count and the remaining directory. -/
def clear_cache (deletable : String → Bool) (fs : CacheDir) : Nat × CacheDir :=
  ((fs.filter (fun kv => isJsonFile kv.1 && deletable kv.1)).length,
   fs.filter (fun kv => !(isJsonFile kv.1 && deletable kv.1)))

/-! ### `src/utils/formatting.py` -/

/-- `safe_str` on an optional string: `None` becomes `""`. -/
def safe_str (value : Option String) : String :=
  match value with
  | none => ""
  | some s => s

/-- `sanitize_filename`: replace each character for which `str.isalnum`
is false with an underscore, then truncate to `max_length` characters.
Python's `isalnum` consults the Unicode character database — external
standard-library data, like `hashlib`'s compression function — so the
embedding abstracts it as the `isalnum` parameter, and the theorems
below hold for every such predicate (in particular the real Unicode
one). -/
def sanitize_filename (isalnum : Char → Bool) (text : String)
    (max_length : Nat := 50) : String :=
  String.mk ((text.data.map (fun c => if isalnum c then c else '_')).take max_length)

/-! ### Python truthiness helpers used at the call sites -/

/-- Truthiness of `load_from_cache`'s value: `if cached_results:` is
false for `None` and for the empty list. -/
def truthy (cached : Option CacheEntry) : Bool :=
  match cached with
  | some l => !l.isEmpty
  | none => false

/-- Truthiness of an optional string (`None`, absent, and `""` are
falsy). -/
def truthyStr (o : Option String) : Bool :=
  match o with
  | none => false
  | some s => s != ""

/-- Python `str` of a boolean, as interpolated by an f-string. -/
def pyStrBool (b : Bool) : String := if b then "True" else "False"

/-- Python f-string interpolation of an `Optional[str]`: `None` prints
as `"None"`. -/
def pyStrOptStr (o : Option String) : String :=
  match o with
  | none => "None"
  | some s => s

/-! ### OpenAlex abstract reconstruction
(`src/tools/openalex_search.py`, lines 83-97)

Positions are Python ints, so they are embedded as `Int`; the inner
`try/except` around the reconstruction is embedded as `Except Unit`,
with `Except.error` the caught-exception case (for example a negative
position indexing an empty list raises `IndexError`). -/

/-- The `while len(abstract_words) <= position: abstract_words.append("")`
loop: pad with empty strings while the length is at most `position`. -/
def padWords (ws : List String) (p : Int) : List String :=
  if p < (ws.length : Int) then ws
  else ws ++ List.replicate ((p + 1).toNat - ws.length) ""

/-- Python list assignment `ws[p] = w` after the padding loop: a
non-negative index is now in range; a negative index counts from the
end and raises `IndexError` when `len + p < 0`. -/
def setWordAt (ws : List String) (p : Int) (word : String) :
    Except Unit (List String) :=
  let ws2 := padWords ws p
  if 0 ≤ p then Except.ok (ws2.set p.toNat word)
  else if 0 ≤ (ws2.length : Int) + p then
    Except.ok (ws2.set ((ws2.length : Int) + p).toNat word)
  else Except.error ()

/-- The nested reconstruction loops: for each `(word, positions)` item
of the inverted index, place `word` at each listed position.  The first
raised exception aborts the loops. -/
def reconstructAbstract (entries : List (String × List Int)) :
    Except Unit (List String) :=
  entries.foldlM (fun ws wp => wp.2.foldlM (fun ws2 p => setWordAt ws2 p wp.1) ws) []

/-- The `abstract_inverted_index` field of a work: `missing` covers an
absent key and any non-`dict` value (the `isinstance(abstract_data, dict)`
guard); `invIndex` is a dict of word to position list. -/
inductive OAAbstract where
  | missing
  | invIndex (entries : List (String × List Int))
deriving DecidableEq, Repr

/-- The abstract-processing block: snippet defaults to
`"No abstract available"`; a dict value is reconstructed, and a raised
exception during reconstruction is caught and replaced by the fixed
fallback snippet. -/
def openalex_abstract_snippet (abstract_data : OAAbstract) : String :=
  match abstract_data with
  | OAAbstract.missing => "No abstract available"
  | OAAbstract.invIndex entries =>
      match reconstructAbstract entries with
      | Except.ok abstract_words => " ".intercalate abstract_words
      | Except.error _ => "Abstract available but could not be processed"

/-! ### Author formatting (identical in
`openalex_search.py` lines 69-71 and `crossref_search.py` lines 64-66) -/

/-- `", ".join(authors[:3])`, plus `" and {n - 3} more"` when more than
three authors were extracted. -/
def format_authors (authors : List String) : String :=
  let authors_str := ", ".intercalate (authors.take 3)
  if authors.length > 3 then
    authors_str ++ " and " ++ toString (authors.length - 3) ++ " more"
  else authors_str

/-! ### `src/tools/web_search.py` -/

/-- One raw DuckDuckGo result dict (`.get` of a missing or `None` field
yields `none`). -/
structure DDGResult where
  title : Option String := none
  href : Option String := none
  body : Option String := none
deriving DecidableEq, Repr

/-- Format one raw DuckDuckGo result (lines 33-39). -/
def web_format_result (r : DDGResult) : SearchResult :=
  { title := safe_str r.title,
    url := safe_str r.href,
    snippet := safe_str r.body,
    source := "DuckDuckGo" }

/-- `web_search(query, max_results)`.  The cache is consulted with the
tool name `"web_search"` and the query text alone; `max_results` is only
forwarded to the upstream DDGS call (modelled by `upstream`).  The cache
lookup happens before the function's `try` block, so an exception it
raises (an undecodable cache file) propagates out of the tool
(`Except.error`). -/
def web_search (fs : CacheDir) (query : String) (max_results : Nat)
    (upstream : Except String (List DDGResult)) (writeOk : Bool) :
    Except Unit (List SearchResult × CacheDir) :=
  match load_from_cache fs "web_search" query with
  | Except.error e => Except.error e
  | Except.ok cached_results =>
    if truthy cached_results then Except.ok (cached_results.getD [], fs)
    else
      match upstream with
      | Except.ok raw_results =>
          let formatted_results := raw_results.map web_format_result
          Except.ok (formatted_results,
            save_to_cache fs "web_search" query formatted_results writeOk)
      | Except.error e =>
          Except.ok
            ([{ title := "Search Error", url := "",
                snippet := "Error performing web search: " ++ e,
                source := "Error" }], fs)

/-! ### `src/tools/openalex_search.py` -/

/-- One work from the OpenAlex response.  `authorships` holds, per
authorship, `authorship.get("author")` (outer `Option`; `none` for an
absent or falsy author dict) and `author.get("display_name")` (inner
`Option`).  `primary_location` pairs the presence of a truthy
`primary_location` dict with its `landing_page_url` field. -/
structure OAWork where
  title : Option String := none
  doi : Option String := none
  primary_location : Option (Option String) := none
  authorships : List (Option (Option String)) := []
  abstract_inverted_index : OAAbstract := OAAbstract.missing
  publication_date : Option String := none
deriving DecidableEq, Repr

/-- Author-name extraction (lines 63-67): keep `display_name` when the
author dict and the name are both truthy. -/
def openalex_extract_authors (work : OAWork) : List String :=
  work.authorships.filterMap (fun a =>
    match a with
    | some dn => if truthyStr dn then some (safe_str dn) else none
    | none => none)

/-- The `elif` chain for the result URL (lines 73-78): a truthy `doi`
gives a DOI URL, else a truthy `landing_page_url` of a truthy
`primary_location` is used, else the URL stays empty. -/
def openalex_result_url (work : OAWork) : String :=
  if truthyStr work.doi then "https://doi.org/" ++ work.doi.getD ""
  else
    match work.primary_location with
    | some lp => if truthyStr lp then safe_str lp else ""
    | none => ""

/-- The body of the result loop (lines 62-112) for one work. -/
def openalex_process_work (work : OAWork) : SearchResult :=
  { title := safe_str work.title,
    url := openalex_result_url work,
    snippet := openalex_abstract_snippet work.abstract_inverted_index,
    publication_date := safe_str work.publication_date,
    authors := format_authors (openalex_extract_authors work),
    source := "OpenAlex" }

/-- The cache key of `openalex_search` (line 27):
`f"{query}_{exact_phrase}_{filter_field}"`.  It does not mention
`max_results`. -/
def openalex_cache_key (query : String) (exact_phrase : Bool)
    (filter_field : Option String) : String :=
  query ++ "_" ++ pyStrBool exact_phrase ++ "_" ++ pyStrOptStr filter_field

/-- `openalex_search(query, exact_phrase, filter_field, max_results)`.
The URL building (lines 32-53) only configures the upstream HTTP call,
which is modelled by `upstream`.  The cache lookup happens before the
`try` block, so an exception it raises propagates out of the tool. -/
def openalex_search (fs : CacheDir) (query : String) (exact_phrase : Bool)
    (filter_field : Option String) (max_results : Nat)
    (upstream : Except String (List OAWork)) (writeOk : Bool) :
    Except Unit (List SearchResult × CacheDir) :=
  let cache_key := openalex_cache_key query exact_phrase filter_field
  match load_from_cache fs "openalex" cache_key with
  | Except.error e => Except.error e
  | Except.ok cached_results =>
    if truthy cached_results then Except.ok (cached_results.getD [], fs)
    else
      match upstream with
      | Except.ok works =>
          let results := works.map openalex_process_work
          Except.ok (results, save_to_cache fs "openalex" cache_key results writeOk)
      | Except.error e =>
          Except.ok
            ([{ title := "Search Error", url := "",
                snippet := "Error performing OpenAlex search: " ++ e,
                source := "Error" }], fs)

/-! ### `src/tools/crossref_search.py` -/

/-- One author dict of a CrossRef item: the `given` and `family` keys
(`some` means the key is present; `safe_str` is applied to the value, so
a `null` value is embedded as `some ""`). -/
structure CRAuthor where
  given : Option String := none
  family : Option String := none
deriving DecidableEq, Repr

/-- One item of the CrossRef response.  `published_print` and
`published_online` carry the `date-parts` list when the corresponding
key is present; `container_title` and `title` carry the lists when the
keys are present; `doi` is `some` when the `DOI` key is present. -/
structure CRItem where
  author : List CRAuthor := []
  published_print : Option (List (List Int)) := none
  published_online : Option (List (List Int)) := none
  container_title : Option (List String) := none
  publisher : Option String := none
  title : Option (List String) := none
  doi : Option String := none
  abstract : Option String := none
deriving DecidableEq, Repr

/-- Author-name assembly (lines 54-62): join the present `given` and
`family` parts with a space, skipping authors with neither part. -/
def crossref_author_name (a : CRAuthor) : Option String :=
  let name_parts :=
    (match a.given with
     | some g => [safe_str (some g)]
     | none => []) ++
    (match a.family with
     | some f => [safe_str (some f)]
     | none => [])
  if name_parts.isEmpty then none else some (" ".intercalate name_parts)

/-- Date selection (lines 69-77): prefer `published-print`'s first
`date-parts` entry when present and truthy, else `published-online`'s;
join the parts with `-`. -/
def crossref_pub_date (item : CRItem) : String :=
  let date_parts : List Int :=
    match item.published_print with
    | some (dp :: _) => dp
    | _ =>
        match item.published_online with
        | some (dp :: _) => dp
        | _ => []
  if date_parts.isEmpty then ""
  else "-".intercalate (date_parts.map (fun part => toString part))

/-- The body of the result loop (lines 53-117) for one item. -/
def crossref_process_item (item : CRItem) : SearchResult :=
  let authors := item.author.filterMap crossref_author_name
  let container :=
    match item.container_title with
    | some (c :: _) => safe_str (some c)
    | _ => ""
  let publisher := safe_str item.publisher
  let title :=
    match item.title with
    | some (t :: _) => safe_str (some t)
    | _ => ""
  let url :=
    match item.doi with
    | some d => "https://doi.org/" ++ d
    | none => ""
  let snippet0 := safe_str item.abstract
  let snippet :=
    if snippet0 != "" then snippet0
    else if container != "" then "Published in " ++ container
    else if publisher != "" then "Published by " ++ publisher
    else ""
  { title := title,
    url := url,
    snippet := snippet,
    authors := format_authors authors,
    publication_date := crossref_pub_date item,
    journal := container,
    publisher := publisher,
    source := "CrossRef" }

/-- The cache key of `crossref_search` (line 25):
`f"{query}_{filter_type}_{rows}"`.  Row counts are non-negative, so
`rows` is embedded as `Nat`; `toString rows` is its decimal rendering,
as in the f-string. -/
def crossref_cache_key (query : String) (filter_type : Option String)
    (rows : Nat) : String :=
  query ++ "_" ++ pyStrOptStr filter_type ++ "_" ++ toString rows

/-- `crossref_search(query, filter_type, rows)`.  The request parameters
(lines 34-43) only configure the upstream HTTP call, which is modelled
by `upstream`.  The cache lookup happens before the `try` block, so an
exception it raises propagates out of the tool. -/
def crossref_search (fs : CacheDir) (query : String)
    (filter_type : Option String) (rows : Nat)
    (upstream : Except String (List CRItem)) (writeOk : Bool) :
    Except Unit (List SearchResult × CacheDir) :=
  let cache_key := crossref_cache_key query filter_type rows
  match load_from_cache fs "crossref" cache_key with
  | Except.error e => Except.error e
  | Except.ok cached_results =>
    if truthy cached_results then Except.ok (cached_results.getD [], fs)
    else
      match upstream with
      | Except.ok items =>
          let results := items.map crossref_process_item
          Except.ok (results, save_to_cache fs "crossref" cache_key results writeOk)
      | Except.error e =>
          Except.ok
            ([{ title := "Search Error", url := "",
                snippet := "Error performing CrossRef search: " ++ e,
                source := "Error" }], fs)

/-! ### C7 development -/

/-- Modelled from the spec's words, for comparison with the source
reconstruction: the word listed at slot `i` of the inverted index, or
`""` when no word lists `i`. -/
def abstractSlot (entries : List (String × List Int)) (i : Nat) : String :=
  match entries.find? (fun wp => wp.2.contains (i : Int)) with
  | some wp => wp.1
  | none => ""

/-- Modelled from the spec's words: the allocated sequence size, one
more than the maximum listed position (zero when nothing is listed). -/
def abstractLen (entries : List (String × List Int)) : Nat :=
  entries.foldl (fun n wp => wp.2.foldl (fun n2 p => max n2 (p.toNat + 1)) n) 0

/-- Modelled from the spec's words: the slots joined by single spaces. -/
def abstractSpecText (entries : List (String × List Int)) : String :=
  " ".intercalate ((List.range (abstractLen entries)).map (abstractSlot entries))

/-- The pure effect of one `abstract_words[position] = word` step on a
non-negative position. -/
def setWordPure (ws : List String) (p : Int) (word : String) : List String :=
  (padWords ws p).set p.toNat word

/-- The pure effect of placing `word` at each of its positions. -/
def fillPosPure (word : String) (ps : List Int) (ws : List String) : List String :=
  ps.foldl (fun ws2 p => setWordPure ws2 p word) ws

/-- The pure effect of the whole reconstruction loop. -/
def reconPure (entries : List (String × List Int)) (ws : List String) : List String :=
  entries.foldl (fun ws wp => fillPosPure wp.1 wp.2 ws) ws


set_option maxRecDepth 40000 in
/-- Sanity anchor: the standard MD5 test vector for the empty string. -/
theorem md5hex_empty : md5hex "" = "d41d8cd98f00b204e9800998ecf8427e" := by
  decide

/-! ### Injectivity of the decimal rendering used in cache keys -/

/-- Decimal parser: left inverse of `Nat.toDigits 10`. -/
def parseDec (l : List Char) : Nat :=
  l.foldl (fun acc c => acc * 10 + (c.toNat - 48)) 0

lemma toDigitsCore_acc (fuel n : Nat) (ds : List Char) :
    Nat.toDigitsCore 10 fuel n ds = Nat.toDigitsCore 10 fuel n [] ++ ds := by
  induction fuel generalizing n ds with
  | zero => simp [Nat.toDigitsCore]
  | succ fuel ih =>
    simp only [Nat.toDigitsCore]
    by_cases h : n / 10 = 0
    · simp [h]
    · simp only [if_neg h]
      rw [ih (n / 10) (Nat.digitChar (n % 10) :: ds),
        ih (n / 10) (Nat.digitChar (n % 10) :: [])]
      simp

lemma toDigitsCore_fuel (f1 f2 n : Nat) (ds : List Char) (h1 : n < f1) (h2 : n < f2) :
    Nat.toDigitsCore 10 f1 n ds = Nat.toDigitsCore 10 f2 n ds := by
  induction f1 generalizing f2 n ds with
  | zero => omega
  | succ f1 ih =>
    cases f2 with
    | zero => omega
    | succ f2 =>
      simp only [Nat.toDigitsCore]
      by_cases h : n / 10 = 0
      · simp [h]
      · simp only [if_neg h]
        have hn : 0 < n := by
          rcases Nat.eq_zero_or_pos n with h0 | h0
          · simp [h0] at h
          · exact h0
        have hd : n / 10 < n := Nat.div_lt_self hn (by norm_num)
        exact ih f2 (n / 10) _ (by omega) (by omega)

lemma parseDec_append_one (l : List Char) (c : Char) :
    parseDec (l ++ [c]) = parseDec l * 10 + (c.toNat - 48) := by
  simp [parseDec, List.foldl_append]

lemma digitChar_toNat (d : Nat) (h : d < 10) : (Nat.digitChar d).toNat - 48 = d := by
  interval_cases d <;> decide

lemma parseDec_toDigits (n : Nat) : parseDec (Nat.toDigits 10 n) = n := by
  induction n using Nat.strong_induction_on with
  | _ n ih =>
    unfold Nat.toDigits
    simp only [Nat.toDigitsCore]
    by_cases h : n / 10 = 0
    · have hlt : n < 10 := by omega
      simp [h, parseDec, Nat.mod_eq_of_lt hlt, digitChar_toNat n hlt]
    · simp only [if_neg h]
      have hn : 0 < n := by
        rcases Nat.eq_zero_or_pos n with h0 | h0
        · simp [h0] at h
        · exact h0
      have hd : n / 10 < n := Nat.div_lt_self hn (by norm_num)
      rw [toDigitsCore_acc, toDigitsCore_fuel n (n / 10 + 1) (n / 10) [] (by omega) (by omega)]
      rw [show Nat.toDigitsCore 10 (n / 10 + 1) (n / 10) [] = Nat.toDigits 10 (n / 10) from rfl]
      rw [parseDec_append_one, ih (n / 10) hd,
        digitChar_toNat (n % 10) (Nat.mod_lt n (by norm_num))]
      omega

theorem Nat_repr_injective : Function.Injective Nat.repr := by
  intro a b h
  have hdig : Nat.toDigits 10 a = Nat.toDigits 10 b := by
    have := congrArg String.data h
    simpa [Nat.repr, List.asString] using this
  have := congrArg parseDec hdig
  simpa [parseDec_toDigits] using this

lemma append_ne_empty_left (p e : String) (hp : p ≠ "") : p ++ e ≠ "" := by
  intro hc
  apply hp
  have hlen : p.length + e.length = 0 := by
    have := congrArg String.length hc
    simpa [String.length_append] using this
  have hp0 : p.length = 0 := by omega
  cases p with
  | mk l =>
      cases l with
      | nil => rfl
      | cons c cs => simp [String.length] at hp0

/-- C3: for every (tool, params) pair and every entry, a successful
`save_to_cache` followed by `load_from_cache` with the same pair returns
exactly the stored entry (round-trip). -/
theorem claim_C3_roundtrip (fs : CacheDir) (tool_name query : String) (entry : CacheEntry) :
    load_from_cache (save_to_cache fs tool_name query entry true) tool_name query =
      Except.ok (some entry) := by
  simp [load_from_cache, save_to_cache, fsWrite, fsRead]

set_option maxRecDepth 100000 in
/-- C4 fails on the code: a cache file whose bytes cannot be decoded
makes `json.load` raise `UnicodeDecodeError`, a subclass of neither
`json.JSONDecodeError` nor `IOError`, so the `except` clause does not
catch it — the error propagates to the caller instead of collapsing to
`None`. -/
theorem claim_C4_counterexample :
    load_from_cache [(get_cache_path "web_search" "solar power", CacheFile.undecodable)]
      "web_search" "solar power" = Except.error () := by
  decide

/-- C4 amended: `load_from_cache` returns `None` when the key is absent,
when the JSON text cannot be parsed (`json.JSONDecodeError`), or when
the storage read fails with `IOError`; but a cache file whose bytes
cannot be decoded raises `UnicodeDecodeError`, which the
`except (json.JSONDecodeError, IOError)` clause does not catch and
which propagates to the caller. -/
theorem claim_C4_amended (fs : CacheDir) (tool_name query : String) :
    ((fsRead fs (get_cache_path tool_name query) = none ∨
      fsRead fs (get_cache_path tool_name query) = some CacheFile.corrupt ∨
      fsRead fs (get_cache_path tool_name query) = some CacheFile.unreadable) →
     load_from_cache fs tool_name query = Except.ok none) ∧
    (fsRead fs (get_cache_path tool_name query) = some CacheFile.undecodable →
     load_from_cache fs tool_name query = Except.error ()) := by
  constructor
  · intro h
    rcases h with h | h | h <;> simp [load_from_cache, h]
  · intro h
    simp [load_from_cache, h]

set_option maxRecDepth 100000 in
/-- C4 witness: a concrete miss and a concrete propagated decode error. -/
theorem claim_C4_witness :
    load_from_cache [] "web_search" "solar power" = Except.ok none ∧
    load_from_cache [(get_cache_path "crossref" "climate", CacheFile.undecodable)]
      "crossref" "climate" = Except.error () :=
  ⟨(claim_C4_amended [] "web_search" "solar power").1 (Or.inl rfl),
   (claim_C4_amended [(get_cache_path "crossref" "climate", CacheFile.undecodable)]
     "crossref" "climate").2 (by decide)⟩

/-- C5: for every provider, a fetch (the cache lookup returned normally
and missed) whose upstream call fails returns — as a normal value,
`Except.ok`, never a raised exception — exactly one result record whose
`source` is `"Error"` and whose snippet is the non-empty failure
message. -/
theorem claim_C5_upstream_failure :
    (∀ (fs : CacheDir) (query : String) (max_results : Nat) (e : String) (writeOk : Bool)
       (cached : Option CacheEntry),
      load_from_cache fs "web_search" query = Except.ok cached → truthy cached = false →
      ∃ r : SearchResult,
        web_search fs query max_results (Except.error e) writeOk = Except.ok ([r], fs) ∧
        r.source = "Error" ∧ r.snippet = "Error performing web search: " ++ e ∧
        r.snippet ≠ "") ∧
    (∀ (fs : CacheDir) (query : String) (exact_phrase : Bool)
       (filter_field : Option String) (max_results : Nat) (e : String) (writeOk : Bool)
       (cached : Option CacheEntry),
      load_from_cache fs "openalex"
        (openalex_cache_key query exact_phrase filter_field) = Except.ok cached →
      truthy cached = false →
      ∃ r : SearchResult,
        openalex_search fs query exact_phrase filter_field max_results
          (Except.error e) writeOk = Except.ok ([r], fs) ∧
        r.source = "Error" ∧ r.snippet = "Error performing OpenAlex search: " ++ e ∧
        r.snippet ≠ "") ∧
    (∀ (fs : CacheDir) (query : String) (filter_type : Option String)
       (rows : Nat) (e : String) (writeOk : Bool) (cached : Option CacheEntry),
      load_from_cache fs "crossref"
        (crossref_cache_key query filter_type rows) = Except.ok cached →
      truthy cached = false →
      ∃ r : SearchResult,
        crossref_search fs query filter_type rows (Except.error e) writeOk =
          Except.ok ([r], fs) ∧
        r.source = "Error" ∧ r.snippet = "Error performing CrossRef search: " ++ e ∧
        r.snippet ≠ "") := by
  refine ⟨?_, ?_, ?_⟩
  · intro fs query max_results e writeOk cached h1 h2
    refine ⟨{ title := "Search Error", url := "",
              snippet := "Error performing web search: " ++ e,
              source := "Error" }, ?_, rfl, rfl, ?_⟩
    · simp [web_search, h1, h2]
    · exact append_ne_empty_left _ _ (by decide)
  · intro fs query exact_phrase filter_field max_results e writeOk cached h1 h2
    refine ⟨{ title := "Search Error", url := "",
              snippet := "Error performing OpenAlex search: " ++ e,
              source := "Error" }, ?_, rfl, rfl, ?_⟩
    · simp [openalex_search, h1, h2]
    · exact append_ne_empty_left _ _ (by decide)
  · intro fs query filter_type rows e writeOk cached h1 h2
    refine ⟨{ title := "Search Error", url := "",
              snippet := "Error performing CrossRef search: " ++ e,
              source := "Error" }, ?_, rfl, rfl, ?_⟩
    · simp [crossref_search, h1, h2]
    · exact append_ne_empty_left _ _ (by decide)

theorem claim_C5_witness :
    (∃ r : SearchResult,
      web_search [] "solar power" 2 (Except.error "boom") true = Except.ok ([r], []) ∧
      r.source = "Error" ∧ r.snippet = "Error performing web search: " ++ "boom" ∧
      r.snippet ≠ "") ∧
    (∃ r : SearchResult,
      openalex_search [] "solar power" true none 2 (Except.error "boom") true =
        Except.ok ([r], []) ∧
      r.source = "Error" ∧ r.snippet = "Error performing OpenAlex search: " ++ "boom" ∧
      r.snippet ≠ "") ∧
    (∃ r : SearchResult,
      crossref_search [] "solar power" none 2 (Except.error "boom") true =
        Except.ok ([r], []) ∧
      r.source = "Error" ∧ r.snippet = "Error performing CrossRef search: " ++ "boom" ∧
      r.snippet ≠ "") :=
  ⟨claim_C5_upstream_failure.1 [] "solar power" 2 "boom" true none rfl rfl,
   claim_C5_upstream_failure.2.1 [] "solar power" true none 2 "boom" true none rfl rfl,
   claim_C5_upstream_failure.2.2 [] "solar power" none 2 "boom" true none rfl rfl⟩

/-- C8: the formatted author string used by the OpenAlex and CrossRef
result loops is the first three names joined by `", "`, with the suffix
`" and {n - 3} more"` exactly when more than three authors exist; five
authors yield the first three and `" and 2 more"`. -/
theorem claim_C8_author_truncation :
    (∀ authors : List String, authors.length ≤ 3 →
      format_authors authors = ", ".intercalate authors) ∧
    (∀ authors : List String, 3 < authors.length →
      format_authors authors =
        ", ".intercalate (authors.take 3) ++ " and " ++
          toString (authors.length - 3) ++ " more") ∧
    (∀ work : OAWork, (openalex_process_work work).authors =
      format_authors (openalex_extract_authors work)) ∧
    (∀ item : CRItem, (crossref_process_item item).authors =
      format_authors (item.author.filterMap crossref_author_name)) ∧
    format_authors ["A. Ahn", "B. Byrd", "C. Cruz", "D. Diaz", "E. Eng"] =
      "A. Ahn, B. Byrd, C. Cruz and 2 more" := by
  refine ⟨?_, ?_, fun work => rfl, fun item => rfl, by decide⟩
  · intro authors h
    simp [format_authors, List.take_of_length_le h, Nat.not_lt.mpr h]
  · intro authors h
    simp [format_authors, h]

theorem claim_C8_witness :
    format_authors ["A. Ahn", "B. Byrd", "C. Cruz", "D. Diaz", "E. Eng"] =
      ", ".intercalate (["A. Ahn", "B. Byrd", "C. Cruz", "D. Diaz", "E. Eng"].take 3) ++
        " and " ++ toString (["A. Ahn", "B. Byrd", "C. Cruz", "D. Diaz", "E. Eng"].length - 3) ++
        " more" ∧
    format_authors ["A. Ahn", "B. Byrd"] = ", ".intercalate ["A. Ahn", "B. Byrd"] :=
  ⟨claim_C8_author_truncation.2.1 ["A. Ahn", "B. Byrd", "C. Cruz", "D. Diaz", "E. Eng"]
    (by decide),
   claim_C8_author_truncation.1 ["A. Ahn", "B. Byrd"] (by decide)⟩

lemma sanitize_filename_length (isalnum : Char → Bool) (text : String) (n : Nat) :
    (sanitize_filename isalnum text n).length = min n text.length := by
  show ((text.data.map (fun c => if isalnum c then c else '_')).take n).length
      = min n text.length
  rw [List.length_take, List.length_map]
  rfl

/-- C9: `sanitize_filename` yields only characters that are alphanumeric
(per `str.isalnum`, abstracted as the `isalnum` argument since Python's
Unicode tables are external data — the properties hold for every
predicate, in particular the real one) or underscores, never exceeds
the configured maximum length, and keeps every alphanumeric input
character (up to truncation) at its original position. -/
theorem claim_C9_sanitize (isalnum : Char → Bool) (text : String) (max_length : Nat) :
    (∀ c ∈ (sanitize_filename isalnum text max_length).data,
      isalnum c = true ∨ c = '_') ∧
    (sanitize_filename isalnum text max_length).length ≤ max_length ∧
    (sanitize_filename isalnum text max_length).length = min max_length text.length ∧
    (∀ i : Nat, i < max_length →
      isalnum (text.data.getD i '*') = true →
      (sanitize_filename isalnum text max_length).data.getD i '*' =
        text.data.getD i '*') := by
  refine ⟨?_, ?_, sanitize_filename_length isalnum text max_length, ?_⟩
  · intro c hc
    have hc2 := List.mem_of_mem_take hc
    obtain ⟨a, _, rfl⟩ := List.mem_map.mp hc2
    by_cases ha : isalnum a
    · left; simp [ha]
    · right; simp [ha]
  · rw [sanitize_filename_length]
    exact Nat.min_le_left _ _
  · intro i hi halnum
    simp only [List.getD_eq_getElem?_getD] at halnum ⊢
    show (((text.data.map (fun c => if isalnum c then c else '_')).take
        max_length)[i]?).getD '*' = (text.data[i]?).getD '*'
    rw [List.getElem?_take_of_lt hi, List.getElem?_map]
    cases hx : text.data[i]? with
    | none => simp
    | some a =>
        rw [hx] at halnum
        simp only [Option.getD_some] at halnum
        simp [halnum]

/-- C9 witness: the properties at a concrete predicate and input (here
the ASCII fragment of the Unicode tables, on an ASCII input). -/
theorem claim_C9_witness :
    (∀ c ∈ (sanitize_filename Char.isAlphanum "solar power, 2024!" 10).data,
      Char.isAlphanum c = true ∨ c = '_') ∧
    (sanitize_filename Char.isAlphanum "solar power, 2024!" 10).length ≤ 10 ∧
    (sanitize_filename Char.isAlphanum "solar power, 2024!" 10).length =
      min 10 ("solar power, 2024!" : String).length ∧
    (∀ i : Nat, i < 10 →
      Char.isAlphanum (("solar power, 2024!" : String).data.getD i '*') = true →
      (sanitize_filename Char.isAlphanum "solar power, 2024!" 10).data.getD i '*' =
        ("solar power, 2024!" : String).data.getD i '*') :=
  claim_C9_sanitize Char.isAlphanum "solar power, 2024!" 10

/-- C10: OpenAlex abstract processing is total: a missing or non-dict
`abstract_inverted_index` yields `"No abstract available"`, and every
failing reconstruction (for example a negative position indexing the
empty slot list, as in the third conjunct) is caught and yields the
fixed fallback snippet instead of an exception. -/
theorem claim_C10_abstract_safety :
    openalex_abstract_snippet OAAbstract.missing = "No abstract available" ∧
    (∀ entries : List (String × List Int),
      reconstructAbstract entries = Except.error () →
      openalex_abstract_snippet (OAAbstract.invIndex entries) =
        "Abstract available but could not be processed") ∧
    reconstructAbstract [("word", [-1])] = Except.error () ∧
    (∀ work : OAWork, (openalex_process_work work).snippet =
      openalex_abstract_snippet work.abstract_inverted_index) := by
  refine ⟨rfl, ?_, rfl, fun work => rfl⟩
  intro entries h
  simp [openalex_abstract_snippet, h]

theorem claim_C10_witness :
    openalex_abstract_snippet (OAAbstract.invIndex [("word", [-1])]) =
      "Abstract available but could not be processed" :=
  claim_C10_abstract_safety.2.1 [("word", [-1])] rfl

set_option maxRecDepth 100000 in
/-- C1 fails on the code: an OpenAlex entry cached by a call with
`max_results = 1` is read back verbatim by a call with
`max_results = 25` (the key `f"{query}_{exact_phrase}_{filter_field}"`
omits `max_results`), and likewise for `web_search`, whose key is the
query text alone. -/
theorem claim_C1_counterexample :
    openalex_search
        (save_to_cache [] "openalex" (openalex_cache_key "solar power" true none)
          [{ title := "t", source := "OpenAlex" }] true)
        "solar power" true none 1 (Except.error "net down") true =
      Except.ok ([{ title := "t", source := "OpenAlex" }],
        save_to_cache [] "openalex" (openalex_cache_key "solar power" true none)
          [{ title := "t", source := "OpenAlex" }] true) ∧
    openalex_search
        (save_to_cache [] "openalex" (openalex_cache_key "solar power" true none)
          [{ title := "t", source := "OpenAlex" }] true)
        "solar power" true none 25 (Except.error "net down") true =
      Except.ok ([{ title := "t", source := "OpenAlex" }],
        save_to_cache [] "openalex" (openalex_cache_key "solar power" true none)
          [{ title := "t", source := "OpenAlex" }] true) ∧
    web_search
        (save_to_cache [] "web_search" "solar power"
          [{ title := "u", source := "DuckDuckGo" }] true)
        "solar power" 1 (Except.error "net down") true =
      Except.ok ([{ title := "u", source := "DuckDuckGo" }],
        save_to_cache [] "web_search" "solar power"
          [{ title := "u", source := "DuckDuckGo" }] true) ∧
    web_search
        (save_to_cache [] "web_search" "solar power"
          [{ title := "u", source := "DuckDuckGo" }] true)
        "solar power" 25 (Except.error "net down") true =
      Except.ok ([{ title := "u", source := "DuckDuckGo" }],
        save_to_cache [] "web_search" "solar power"
          [{ title := "u", source := "DuckDuckGo" }] true) := by
  refine ⟨?_, ?_, ?_, ?_⟩ <;> decide

/-- C1 amended: only `crossref_search` derives its cache key from the
full parameter set — two crossref calls with the same query and filter
but different row counts never share a cache key.  `web_search` and
`openalex_search` ignore `max_results` entirely (their behaviour,
including every cache read and write, is identical for any two
`max_results` values). -/
theorem claim_C1_amended :
    (∀ (q : String) (f : Option String) (r1 r2 : Nat), r1 ≠ r2 →
      crossref_cache_key q f r1 ≠ crossref_cache_key q f r2) ∧
    (∀ (fs : CacheDir) (q : String) (m1 m2 : Nat)
       (u : Except String (List DDGResult)) (w : Bool),
      web_search fs q m1 u w = web_search fs q m2 u w) ∧
    (∀ (fs : CacheDir) (q : String) (e : Bool) (f : Option String) (m1 m2 : Nat)
       (u : Except String (List OAWork)) (w : Bool),
      openalex_search fs q e f m1 u w = openalex_search fs q e f m2 u w) := by
  refine ⟨?_, fun fs q m1 m2 u w => rfl, fun fs q e f m1 m2 u w => rfl⟩
  intro q f r1 r2 hne hc
  apply hne
  apply Nat_repr_injective
  apply String.ext
  have hd := congrArg String.data hc
  simp only [crossref_cache_key, String.data_append, List.append_assoc] at hd
  exact List.append_cancel_left (List.append_cancel_left
    (List.append_cancel_left (List.append_cancel_left hd)))

theorem claim_C1_witness :
    crossref_cache_key "solar power" none 5 ≠ crossref_cache_key "solar power" none 7 :=
  claim_C1_amended.1 "solar power" none 5 7 (by decide)

set_option maxRecDepth 100000 in
/-- C2 fails on the code for the empty list: with `[]` stored under the
derived key, `web_search` and `openalex_search` do not return the stored
entry — the truthiness test `if cached_results:` treats `some []` as a
miss, so the upstream is fetched (here yielding the synthetic error
record). -/
theorem claim_C2_counterexample :
    load_from_cache (save_to_cache [] "web_search" "solar power" [] true)
      "web_search" "solar power" = Except.ok (some []) ∧
    web_search (save_to_cache [] "web_search" "solar power" [] true)
        "solar power" 3 (Except.error "net down") true =
      Except.ok
        ([{ title := "Search Error", url := "",
            snippet := "Error performing web search: net down",
            source := "Error" }],
          save_to_cache [] "web_search" "solar power" [] true) ∧
    load_from_cache (save_to_cache [] "openalex" (openalex_cache_key "solar power" true none)
        [] true) "openalex" (openalex_cache_key "solar power" true none) =
      Except.ok (some []) ∧
    openalex_search (save_to_cache [] "openalex" (openalex_cache_key "solar power" true none)
        [] true) "solar power" true none 3 (Except.error "net down") true =
      Except.ok
        ([{ title := "Search Error", url := "",
            snippet := "Error performing OpenAlex search: net down",
            source := "Error" }],
          save_to_cache [] "openalex" (openalex_cache_key "solar power" true none)
            [] true) := by
  refine ⟨?_, ?_, ?_, ?_⟩ <;> decide

/-- C2 amended: every provider returns a stored non-empty entry
verbatim, with no upstream fetch and no cache write; a stored empty
list is instead treated as a miss and the upstream call is performed
(witnessed by the upstream error surfacing in the result). -/
theorem claim_C2_amended :
    (∀ (fs : CacheDir) (q : String) (m : Nat) (u : Except String (List DDGResult))
       (w : Bool) (l : CacheEntry),
      load_from_cache fs "web_search" q = Except.ok (some l) → l ≠ [] →
      web_search fs q m u w = Except.ok (l, fs)) ∧
    (∀ (fs : CacheDir) (q : String) (e : Bool) (f : Option String) (m : Nat)
       (u : Except String (List OAWork)) (w : Bool) (l : CacheEntry),
      load_from_cache fs "openalex" (openalex_cache_key q e f) = Except.ok (some l) →
      l ≠ [] →
      openalex_search fs q e f m u w = Except.ok (l, fs)) ∧
    (∀ (fs : CacheDir) (q : String) (f : Option String) (r : Nat)
       (u : Except String (List CRItem)) (w : Bool) (l : CacheEntry),
      load_from_cache fs "crossref" (crossref_cache_key q f r) = Except.ok (some l) →
      l ≠ [] →
      crossref_search fs q f r u w = Except.ok (l, fs)) ∧
    (∀ (fs : CacheDir) (q : String) (m : Nat) (er : String) (w : Bool),
      load_from_cache fs "web_search" q = Except.ok (some []) →
      web_search fs q m (Except.error er) w =
        Except.ok
          ([{ title := "Search Error", url := "",
              snippet := "Error performing web search: " ++ er,
              source := "Error" }], fs)) ∧
    (∀ (fs : CacheDir) (q : String) (e : Bool) (f : Option String) (m : Nat)
       (er : String) (w : Bool),
      load_from_cache fs "openalex" (openalex_cache_key q e f) = Except.ok (some []) →
      openalex_search fs q e f m (Except.error er) w =
        Except.ok
          ([{ title := "Search Error", url := "",
              snippet := "Error performing OpenAlex search: " ++ er,
              source := "Error" }], fs)) ∧
    (∀ (fs : CacheDir) (q : String) (f : Option String) (r : Nat) (er : String) (w : Bool),
      load_from_cache fs "crossref" (crossref_cache_key q f r) = Except.ok (some []) →
      crossref_search fs q f r (Except.error er) w =
        Except.ok
          ([{ title := "Search Error", url := "",
              snippet := "Error performing CrossRef search: " ++ er,
              source := "Error" }], fs)) := by
  refine ⟨?_, ?_, ?_, ?_, ?_, ?_⟩
  · intro fs q m u w l h1 h2
    cases l with
    | nil => exact absurd rfl h2
    | cons a ls => simp [web_search, h1, truthy]
  · intro fs q e f m u w l h1 h2
    cases l with
    | nil => exact absurd rfl h2
    | cons a ls => simp [openalex_search, h1, truthy]
  · intro fs q f r u w l h1 h2
    cases l with
    | nil => exact absurd rfl h2
    | cons a ls => simp [crossref_search, h1, truthy]
  · intro fs q m er w h1
    simp [web_search, h1, truthy]
  · intro fs q e f m er w h1
    simp [openalex_search, h1, truthy]
  · intro fs q f r er w h1
    simp [crossref_search, h1, truthy]

set_option maxRecDepth 100000 in
/-- C2 witness: concrete instances of the amended claim. -/
theorem claim_C2_witness :
    web_search (save_to_cache [] "web_search" "solar power"
        [{ title := "u", source := "DuckDuckGo" }] true) "solar power" 3
      (Except.error "net down") true =
      Except.ok ([{ title := "u", source := "DuckDuckGo" }],
        save_to_cache [] "web_search" "solar power"
          [{ title := "u", source := "DuckDuckGo" }] true) ∧
    web_search (save_to_cache [] "web_search" "solar power" [] true) "solar power" 3
      (Except.error "net down") true =
      Except.ok
        ([{ title := "Search Error", url := "",
            snippet := "Error performing web search: " ++ "net down",
            source := "Error" }],
          save_to_cache [] "web_search" "solar power" [] true) :=
  ⟨claim_C2_amended.1 _ "solar power" 3 _ true _ (by decide) (by decide),
   claim_C2_amended.2.2.2.1 _ "solar power" 3 "net down" true (by decide)⟩

lemma isJsonFile_get_cache_path (tool q : String) :
    isJsonFile (get_cache_path tool q) = true := by
  simp only [isJsonFile, get_cache_path, List.isSuffixOf_iff_suffix, String.data_append]
  exact List.suffix_append _ _

set_option maxRecDepth 100000 in
/-- C6 fails on the code when a deletion fails: with two cached
entries of which one is undeletable, `clear_cache` returns 1 (the
successful unlinks), not the 2 entries that existed beforehand, and the
surviving key is still loadable afterwards. -/
theorem claim_C6_counterexample :
    (clear_cache (fun p => p == get_cache_path "t1" "alpha")
        (save_to_cache (save_to_cache [] "t1" "alpha" [{ title := "x" }] true)
          "t2" "beta" [{ title := "y" }] true)).1 = 1 ∧
    ((save_to_cache (save_to_cache [] "t1" "alpha" [{ title := "x" }] true)
        "t2" "beta" [{ title := "y" }] true).filter
      (fun kv => isJsonFile kv.1)).length = 2 ∧
    load_from_cache (clear_cache (fun p => p == get_cache_path "t1" "alpha")
        (save_to_cache (save_to_cache [] "t1" "alpha" [{ title := "x" }] true)
          "t2" "beta" [{ title := "y" }] true)).2 "t2" "beta" =
      Except.ok (some [{ title := "y" }]) := by
  refine ⟨?_, ?_, ?_⟩ <;> decide

/-- C6 amended: when every deletion succeeds, `clear_cache` returns
exactly the number of cache files that existed beforehand and every
previously stored key subsequently misses; and independently of other
files, every deletable cache file is removed — one undeletable file
does not abort the remaining deletions. -/
theorem claim_C6_amended :
    (∀ (deletable : String → Bool) (fs : CacheDir),
      (∀ p, deletable p = true) →
      (clear_cache deletable fs).1 =
        (fs.filter (fun kv => isJsonFile kv.1)).length ∧
      ∀ tool q, load_from_cache (clear_cache deletable fs).2 tool q = Except.ok none) ∧
    (∀ (deletable : String → Bool) (fs : CacheDir) (path : String),
      deletable path = true → isJsonFile path = true →
      fsRead (clear_cache deletable fs).2 path = none) := by
  constructor
  · intro deletable fs h
    have hfun : (fun kv : String × CacheFile => isJsonFile kv.1 && deletable kv.1) =
        (fun kv : String × CacheFile => isJsonFile kv.1) := by
      funext kv
      rw [h kv.1, Bool.and_true]
    constructor
    · simp only [clear_cache, hfun]
    · intro tool q
      simp only [load_from_cache, clear_cache, fsRead]
      rw [List.find?_eq_none.mpr]
      · rfl
      intro kv hkv
      have hmem := List.of_mem_filter hkv
      rw [h kv.1, Bool.and_true, Bool.not_eq_true'] at hmem
      intro hbeq
      have hk : kv.1 = get_cache_path tool q := by simpa using hbeq
      rw [hk, isJsonFile_get_cache_path] at hmem
      cases hmem
  · intro deletable fs path hdel hjson
    simp only [clear_cache, fsRead]
    rw [List.find?_eq_none.mpr]
    · rfl
    intro kv hkv
    have hmem := List.of_mem_filter hkv
    simp only [Bool.not_eq_true'] at hmem
    intro hbeq
    have : kv.1 = path := by simpa using hbeq
    rw [this, hjson, hdel] at hmem
    simp at hmem

set_option maxRecDepth 100000 in
/-- C6 witness: a concrete instance of the amended claim. -/
theorem claim_C6_witness :
    (clear_cache (fun _ => true)
        (save_to_cache (save_to_cache [] "t1" "alpha" [{ title := "x" }] true)
          "t2" "beta" [{ title := "y" }] true)).1 =
      ((save_to_cache (save_to_cache [] "t1" "alpha" [{ title := "x" }] true)
          "t2" "beta" [{ title := "y" }] true).filter
        (fun kv => isJsonFile kv.1)).length ∧
    load_from_cache (clear_cache (fun _ => true)
        (save_to_cache (save_to_cache [] "t1" "alpha" [{ title := "x" }] true)
          "t2" "beta" [{ title := "y" }] true)).2 "t1" "alpha" = Except.ok none :=
  ⟨(claim_C6_amended.1 (fun _ => true) _ (fun _ => rfl)).1,
   (claim_C6_amended.1 (fun _ => true) _ (fun _ => rfl)).2 "t1" "alpha"⟩

lemma setWordAt_nonneg (ws : List String) (p : Int) (w : String) (hp : 0 ≤ p) :
    setWordAt ws p w = Except.ok (setWordPure ws p w) := by
  simp [setWordAt, setWordPure, hp]

lemma padWords_length (ws : List String) (p : Int) (hp : 0 ≤ p) :
    (padWords ws p).length = max ws.length (p.toNat + 1) := by
  unfold padWords
  by_cases h : p < (ws.length : Int)
  · rw [if_pos h]
    omega
  · rw [if_neg h]
    simp only [List.length_append, List.length_replicate]
    omega

lemma setWordPure_length (ws : List String) (p : Int) (w : String) (hp : 0 ≤ p) :
    (setWordPure ws p w).length = max ws.length (p.toNat + 1) := by
  simp [setWordPure, padWords_length ws p hp]

lemma padWords_getD (ws : List String) (p : Int) (q : Nat) :
    (padWords ws p).getD q "" = ws.getD q "" := by
  unfold padWords
  by_cases h : p < (ws.length : Int)
  · rw [if_pos h]
  · rw [if_neg h]
    simp only [List.getD_eq_getElem?_getD]
    by_cases hq : q < ws.length
    · rw [List.getElem?_append_left hq]
    · rw [List.getElem?_append_right (by omega), List.getElem?_replicate]
      rw [List.getElem?_eq_none (by omega)]
      split <;> rfl

lemma setWordPure_getD (ws : List String) (p : Int) (w : String) (hp : 0 ≤ p) (q : Nat) :
    (setWordPure ws p w).getD q "" = if q = p.toNat then w else ws.getD q "" := by
  unfold setWordPure
  by_cases hq : q = p.toNat
  · rw [if_pos hq]
    have hlt : p.toNat < (padWords ws p).length := by
      rw [padWords_length ws p hp]
      omega
    rw [hq]
    simp [List.getD_eq_getElem?_getD, List.getElem?_set_self hlt]
  · rw [if_neg hq]
    simp only [List.getD_eq_getElem?_getD]
    rw [List.getElem?_set_ne (by omega)]
    have := padWords_getD ws p q
    simpa [List.getD_eq_getElem?_getD] using this

lemma foldl_max_init (ps : List Int) (a : Nat) :
    ps.foldl (fun n p => max n (p.toNat + 1)) a =
      max a (ps.foldl (fun n p => max n (p.toNat + 1)) 0) := by
  induction ps generalizing a with
  | nil => simp
  | cons p ps ih =>
      simp only [List.foldl_cons]
      rw [ih (max a (p.toNat + 1)), ih (max 0 (p.toNat + 1))]
      omega

lemma fillPos_ok (w : String) (ps : List Int) (hps : ∀ p ∈ ps, 0 ≤ p) (ws : List String) :
    ps.foldlM (fun ws2 p => setWordAt ws2 p w) ws = Except.ok (fillPosPure w ps ws) := by
  induction ps generalizing ws with
  | nil => rfl
  | cons p ps ih =>
      rw [List.foldlM_cons, setWordAt_nonneg ws p w (hps p (by simp))]
      show ps.foldlM (fun ws2 p => setWordAt ws2 p w) (setWordPure ws p w) = _
      exact ih (fun p2 h2 => hps p2 (by simp [h2])) (setWordPure ws p w)

lemma fillPosPure_length (w : String) (ps : List Int) (hps : ∀ p ∈ ps, 0 ≤ p)
    (ws : List String) :
    (fillPosPure w ps ws).length =
      max ws.length (ps.foldl (fun n p => max n (p.toNat + 1)) 0) := by
  induction ps generalizing ws with
  | nil => simp [fillPosPure]
  | cons p ps ih =>
      show (fillPosPure w ps (setWordPure ws p w)).length = _
      rw [ih (fun p2 h2 => hps p2 (by simp [h2])) (setWordPure ws p w),
        setWordPure_length ws p w (hps p (by simp))]
      simp only [List.foldl_cons]
      rw [foldl_max_init ps (max 0 (p.toNat + 1))]
      omega

lemma fillPosPure_getD (w : String) (ps : List Int) (hps : ∀ p ∈ ps, 0 ≤ p)
    (ws : List String) (q : Nat) :
    (fillPosPure w ps ws).getD q "" =
      if (q : Int) ∈ ps then w else ws.getD q "" := by
  induction ps generalizing ws with
  | nil => simp [fillPosPure]
  | cons p ps ih =>
      have h0 : (0 : Int) ≤ p := hps p (by simp)
      show (fillPosPure w ps (setWordPure ws p w)).getD q "" = _
      rw [ih (fun p2 h2 => hps p2 (by simp [h2])) (setWordPure ws p w),
        setWordPure_getD ws p w h0 q]
      by_cases hin : (q : Int) ∈ ps
      · rw [if_pos hin, if_pos (List.mem_cons_of_mem p hin)]
      · rw [if_neg hin]
        by_cases heq : q = p.toNat
        · have hqp : (q : Int) = p := by omega
          rw [if_pos heq, if_pos (by rw [hqp]; exact List.mem_cons_self p ps)]
        · have hqp : ¬((q : Int) = p) := by omega
          rw [if_neg heq, if_neg (by simp [List.mem_cons, hqp, hin])]

lemma recon_ok_from :
    ∀ (entries : List (String × List Int)),
      (∀ wp ∈ entries, ∀ p ∈ wp.2, 0 ≤ p) →
      ∀ ws : List String,
        entries.foldlM (fun ws wp => wp.2.foldlM (fun ws2 p => setWordAt ws2 p wp.1) ws) ws =
          Except.ok (reconPure entries ws) := by
  intro entries
  induction entries with
  | nil => intro _ ws; rfl
  | cons wp rest ih =>
      intro hpos ws
      rw [List.foldlM_cons, fillPos_ok wp.1 wp.2 (hpos wp (by simp)) ws]
      show rest.foldlM _ (fillPosPure wp.1 wp.2 ws) = _
      exact ih (fun wp2 h2 => hpos wp2 (by simp [h2])) (fillPosPure wp.1 wp.2 ws)

lemma recon_ok (entries : List (String × List Int))
    (hpos : ∀ wp ∈ entries, ∀ p ∈ wp.2, 0 ≤ p) :
    reconstructAbstract entries = Except.ok (reconPure entries []) :=
  recon_ok_from entries hpos []

lemma abstractLen_init (entries : List (String × List Int)) :
    ∀ a : Nat,
      entries.foldl (fun n wp => wp.2.foldl (fun n2 p => max n2 (p.toNat + 1)) n) a =
        max a (abstractLen entries) := by
  induction entries with
  | nil => intro a; simp [abstractLen]
  | cons wp rest ih =>
      intro a
      simp only [List.foldl_cons]
      rw [foldl_max_init wp.2 a, ih (max a (wp.2.foldl (fun n2 p => max n2 (p.toNat + 1)) 0))]
      have h2 : abstractLen (wp :: rest) =
          max (wp.2.foldl (fun n2 p => max n2 (p.toNat + 1)) 0) (abstractLen rest) := by
        show List.foldl (fun n wp => wp.2.foldl (fun n2 p => max n2 (p.toNat + 1)) n) 
          (wp.2.foldl (fun n2 p => max n2 (p.toNat + 1)) 0) rest = _
        exact ih (wp.2.foldl (fun n2 p => max n2 (p.toNat + 1)) 0)
      rw [h2]
      omega

lemma reconPure_length :
    ∀ (entries : List (String × List Int)),
      (∀ wp ∈ entries, ∀ p ∈ wp.2, 0 ≤ p) →
      ∀ ws : List String,
        (reconPure entries ws).length = max ws.length (abstractLen entries) := by
  intro entries
  induction entries with
  | nil => intro _ ws; simp [reconPure, abstractLen]
  | cons wp rest ih =>
      intro hpos ws
      show (reconPure rest (fillPosPure wp.1 wp.2 ws)).length = _
      rw [ih (fun wp2 h2 => hpos wp2 (by simp [h2])) (fillPosPure wp.1 wp.2 ws),
        fillPosPure_length wp.1 wp.2 (hpos wp (by simp)) ws]
      have h2 : abstractLen (wp :: rest) =
          max (wp.2.foldl (fun n2 p => max n2 (p.toNat + 1)) 0) (abstractLen rest) := by
        show List.foldl (fun n wp => wp.2.foldl (fun n2 p => max n2 (p.toNat + 1)) n) 
          (wp.2.foldl (fun n2 p => max n2 (p.toNat + 1)) 0) rest = _
        exact abstractLen_init rest (wp.2.foldl (fun n2 p => max n2 (p.toNat + 1)) 0)
      rw [h2]
      omega

lemma reconPure_getD :
    ∀ (entries : List (String × List Int)),
      (∀ wp ∈ entries, ∀ p ∈ wp.2, 0 ≤ p) →
      ((entries.map (fun wp => wp.2)).flatten).Nodup →
      ∀ (ws : List String) (q : Nat),
        (reconPure entries ws).getD q "" =
          (match entries.find? (fun wp => wp.2.contains (q : Int)) with
           | some wp => wp.1
           | none => ws.getD q "") := by
  intro entries
  induction entries with
  | nil => intro _ _ ws q; rfl
  | cons wp rest ih =>
      intro hpos hnd ws q
      have hnd2 : ((rest.map (fun wp => wp.2)).flatten).Nodup := by
        simp only [List.map_cons, List.flatten_cons] at hnd
        exact (List.nodup_append.mp hnd).2.1
      have hdisj : List.Disjoint wp.2 ((rest.map (fun wp => wp.2)).flatten) := by
        simp only [List.map_cons, List.flatten_cons] at hnd
        exact (List.nodup_append.mp hnd).2.2
      show (reconPure rest (fillPosPure wp.1 wp.2 ws)).getD q "" = _
      rw [ih (fun wp2 h2 => hpos wp2 (by simp [h2])) hnd2 (fillPosPure wp.1 wp.2 ws) q]
      cases hfind : rest.find? (fun wp2 => wp2.2.contains (q : Int)) with
      | some wp2 =>
          have hpred := List.find?_some hfind
          have hmem2 := List.mem_of_find?_eq_some hfind
          have hqrest : (q : Int) ∈ (rest.map (fun wp => wp.2)).flatten := by
            rw [List.mem_flatten]
            exact ⟨wp2.2, List.mem_map.mpr ⟨wp2, hmem2, rfl⟩, by simpa using hpred⟩
          have hnotin : ¬(wp.2.contains ((q : Int)) = true) := by
            intro hc
            exact hdisj (by simpa using hc) hqrest
          have hcons : List.find? (fun wp2 => wp2.2.contains (q : Int)) (wp :: rest) =
              List.find? (fun wp2 => wp2.2.contains (q : Int)) rest :=
            List.find?_cons_of_neg rest hnotin
          rw [hcons, hfind]
      | none =>
          rw [fillPosPure_getD wp.1 wp.2 (hpos wp (by simp)) ws q]
          by_cases hin : (q : Int) ∈ wp.2
          · have hcons : List.find? (fun wp2 => wp2.2.contains (q : Int)) (wp :: rest) =
                some wp :=
              List.find?_cons_of_pos rest (by simpa using hin)
            rw [if_pos hin, hcons]
          · have hcons : List.find? (fun wp2 => wp2.2.contains (q : Int)) (wp :: rest) =
                List.find? (fun wp2 => wp2.2.contains (q : Int)) rest :=
              List.find?_cons_of_neg rest (by simpa using hin)
            rw [if_neg hin, hcons, hfind]

/-- C7: on a well-formed inverted index (non-negative positions, no
position listed twice), the source reconstruction produces exactly the
spec text — the slot at each listed position holds its word, unfilled
slots are empty strings, and the slots are joined by single spaces; in
particular the index alpha at 0 and 2, beta at 1 yields
`"alpha beta alpha"`. -/
theorem claim_C7_reconstruction (entries : List (String × List Int))
    (hpos : ∀ wp ∈ entries, ∀ p ∈ wp.2, 0 ≤ p)
    (hnd : ((entries.map (fun wp => wp.2)).flatten).Nodup) :
    openalex_abstract_snippet (OAAbstract.invIndex entries) = abstractSpecText entries ∧
    openalex_abstract_snippet (OAAbstract.invIndex [("alpha", [0, 2]), ("beta", [1])]) =
      "alpha beta alpha" := by
  constructor
  · show (match reconstructAbstract entries with
      | Except.ok abstract_words => " ".intercalate abstract_words
      | Except.error _ => "Abstract available but could not be processed") = _
    rw [recon_ok entries hpos]
    show " ".intercalate (reconPure entries []) = abstractSpecText entries
    unfold abstractSpecText
    congr 1
    apply List.ext_getElem
    · rw [reconPure_length entries hpos [], List.length_map, List.length_range]
      simp
    · intro i h1 h2
      rw [List.getElem_map, List.getElem_range]
      rw [← List.getD_eq_getElem (reconPure entries []) "" h1]
      rw [reconPure_getD entries hpos hnd [] i]
      unfold abstractSlot
      cases hf : entries.find? (fun wp => wp.2.contains (i : Int)) <;> simp [hf]
  · decide

theorem claim_C7_witness :
    openalex_abstract_snippet (OAAbstract.invIndex [("alpha", [0, 2]), ("beta", [1])]) =
      abstractSpecText [("alpha", [0, 2]), ("beta", [1])] ∧
    openalex_abstract_snippet (OAAbstract.invIndex [("alpha", [0, 2]), ("beta", [1])]) =
      "alpha beta alpha" :=
  claim_C7_reconstruction [("alpha", [0, 2]), ("beta", [1])] (by decide) (by decide)

/-- C3 witness: a concrete instance of the round-trip. -/
theorem claim_C3_witness :
    load_from_cache (save_to_cache [] "web_search" "solar power"
        [{ title := "t", source := "DuckDuckGo" }] true) "web_search" "solar power" =
      Except.ok (some [{ title := "t", source := "DuckDuckGo" }]) :=
  claim_C3_roundtrip [] "web_search" "solar power"
    [{ title := "t", source := "DuckDuckGo" }]
